import Mathlib

/-!
Verification of the Ergo live-preview build pipeline.

Shallow embedding of the backend components:
- OutputMonitor._build_urls_with_cache_busting (app/backend/output_monitor.py)
- Apa7FormHandler.generate_main_typ and its helpers (app/backend/apa7_form_handler.py)
- ProcessManager.start_typst_watch / stop_process / export_pdf completion
  (app/backend/process_manager.py)

Dictionaries keyed by path become association lists, wall-clock reads and
filesystem stat results become explicit parameters, and the in-place mutation
of the form model (image labels) becomes explicit state passing.
-/

set_option maxHeartbeats 1000000

namespace Ergo

/-! ## Output artifact tracker (output_monitor.py)

`self.file_timestamps` maps a file key to a pair (mtime, cache_buster).
Modelled as an association list.  The mtime (a Python float compared only for
equality) is modelled as an Int; cache-buster tokens (int milliseconds) as Nat.
-/

abbrev TS := List (String × Int × Nat)

def tsLookup : TS → String → Option (Int × Nat)
  | [], _ => none
  | (k, m, c) :: rest, key => if k = key then some (m, c) else tsLookup rest key

def tsInsert : TS → String → Int × Nat → TS
  | [], key, v => [(key, v.1, v.2)]
  | (k, m, c) :: rest, key, v =>
    if k = key then (key, v.1, v.2) :: rest else (k, m, c) :: tsInsert rest key v

/-- Result of `_build_urls_with_cache_busting`: the url list is kept as
(file_key, cache_buster) pairs, the actual url string being
"file://" ++ key ++ "?t=" ++ toString buster. -/
structure ScanOut where
  urls : List (String × Nat)
  firstChanged : Int
  ts : TS
  deriving DecidableEq, Repr

/-- One file entry of the scan: its key and the result of stat
(`some mtime`, or `none` when stat raised OSError). -/
abbrev FileStat := String × Option Int

def buildAux (now : Nat) : List FileStat → Nat → TS → Int → ScanOut
  | [], _, ts, fci => ⟨[], fci, ts⟩
  | (key, stat) :: rest, idx, ts, fci =>
    match stat with
    | some m =>
      match tsLookup ts key with
      | some (sm, cb) =>
        if m ≠ sm then
          let ts' := tsInsert ts key (m, now)
          let fci' := if fci = -1 then (idx : Int) else fci
          let r := buildAux now rest (idx + 1) ts' fci'
          ⟨(key, now) :: r.urls, r.firstChanged, r.ts⟩
        else
          let r := buildAux now rest (idx + 1) ts fci
          ⟨(key, cb) :: r.urls, r.firstChanged, r.ts⟩
      | none =>
        let ts' := tsInsert ts key (m, now)
        let fci' := if fci = -1 then (idx : Int) else fci
        let r := buildAux now rest (idx + 1) ts' fci'
        ⟨(key, now) :: r.urls, r.firstChanged, r.ts⟩
    | none =>
      let r := buildAux now rest (idx + 1) ts fci
      ⟨(key, now) :: r.urls, r.firstChanged, r.ts⟩

/-- `OutputMonitor._build_urls_with_cache_busting(files)`, with the wall clock
(`int(time.time() * 1000)`) and the per-file stat outcomes passed explicitly,
and the `self.file_timestamps` dictionary threaded as state. -/
def buildUrlsWithCacheBusting (files : List FileStat) (now : Nat) (ts : TS) : ScanOut :=
  buildAux now files 0 ts (-1)

/-! ## Document generator (apa7_form_handler.py)

Form dictionaries become structures; a missing/None string field is modelled
as the empty string (Python truthiness: a field "is present" iff non-empty).
The in-place label mutation of image blocks is modelled by returning the
updated block list; `uuid.uuid4()` is modelled as an externally supplied
stream of strings, indexed by a counter threaded through generation.
-/

/-- Special-character escaping of `Apa7FormHandler._escape_typst`, at the
character-list level.  Python str.replace with a single-character needle
replaces every occurrence, which is exactly a character-wise expansion. -/
def replChar (c : Char) (r : List Char) : List Char → List Char
  | [] => []
  | ch :: rest => (if ch = c then r else [ch]) ++ replChar c r rest

/-- The replace chain of `_escape_typst`: backslash first, then the grouping,
directive and math characters. -/
def escapeTypstL (s : List Char) : List Char :=
  replChar '$' ['\\', '$']
    (replChar '#' ['\\', '#']
      (replChar ']' ['\\', ']']
        (replChar '[' ['\\', '[']
          (replChar '\\' ['\\', '\\'] s))))

/-- `Apa7FormHandler._escape_typst` (the `if not text: return ""` guard kept
for fidelity, though it coincides with the chain on the empty string). -/
def escapeTypst (s : String) : String :=
  if s = "" then "" else String.mk (escapeTypstL s.data)

/-- The set of characters `_escape_typst` treats as special. -/
def isSpecialChar (c : Char) : Bool :=
  c = '\\' || c = '[' || c = ']' || c = '#' || c = '$'

/-- Character-wise escaping as the spec describes it: each special character
is escape-prefixed exactly once. -/
def escSpec : List Char → List Char
  | [] => []
  | ch :: rest => (if isSpecialChar ch then ['\\', ch] else [ch]) ++ escSpec rest

/-- Scans a character list left to right with a flag recording whether the
previous character was an escaping backslash; false iff some special
character occurs outside an escape sequence (a trailing escaping backslash
that escapes nothing also counts as unescaped). -/
def noUnescapedAux : List Char → Bool → Bool
  | [], esc => !esc
  | c :: rest, esc =>
    if esc then noUnescapedAux rest false
    else if c = '\\' then noUnescapedAux rest true
    else !(isSpecialChar c) && noUnescapedAux rest false

/-- True iff no special character occurs outside an escape sequence. -/
def noUnescaped (s : List Char) : Bool :=
  noUnescapedAux s false

/-- A content block of a section: the closed tagged union behind the
text/image block dictionaries. -/
inductive Block where
  | text (content : String)
  | image (path caption note label : String)
  deriving DecidableEq, Repr

/-- The figure markup emitted for an image block (apa7_form_handler.py,
lines 151-164), for an already-slash-normalized path. -/
def figCode (path caption note label : String) : String :=
  "#figure(\n"
  ++ "  image(\"../" ++ path ++ "\"),\n"
  ++ (if caption ≠ "" then "  caption: [" ++ escapeTypst caption ++ "],\n" else "")
  ++ ")"
  ++ (if label ≠ "" then " <" ++ label ++ ">" else "")
  ++ (if note ≠ "" then
        "\n#pad(top: 0.5em)[\n  #text(style: \"italic\")[Note.] "
        ++ escapeTypst note ++ "\n]"
      else "")

/-- The per-block loop of generate_main_typ: emits one markup part per block,
assigns a label ("img:" ++ fresh uuid) to an image block whose label is empty
and persists it back into the block (in-place dict mutation in the source).
`supply k` is the k-th uuid drawn; the counter is threaded through. -/
def processBlocks (supply : Nat → String) : List Block → Nat → List Block × List String × Nat
  | [], k => ([], [], k)
  | .text c :: rest, k =>
    let r := processBlocks supply rest k
    (.text c :: r.1, c :: r.2.1, r.2.2)
  | .image p c n l :: rest, k =>
    let l' := if l = "" then "img:" ++ supply k else l
    let k1 := if l = "" then k + 1 else k
    let r := processBlocks supply rest k1
    (.image p c n l' :: r.1, figCode (p.replace "\\" "/") c n l' :: r.2.1, r.2.2)

structure Author where
  name : String
  orcid : String
  affiliationIds : List String
  deriving DecidableEq, Repr

structure Affiliation where
  id : String
  name : String
  deriving DecidableEq, Repr

structure Section where
  id : String
  title : String
  level : Nat
  blocks : List Block
  content : String
  deriving DecidableEq, Repr

/-- The whole form model passed to generate_main_typ. -/
structure Doc where
  title : String
  authors : List Author
  affiliations : List Affiliation
  sections : List Section
  runningHead : String
  authorNotes : String
  course : String
  instructor : String
  dueDate : String
  abstract : String
  keywords : String
  fontFamily : String
  fontSize : Int
  paperSize : String
  region : String
  language : String
  implicitIntro : Bool
  abstractAsDesc : Bool
  deriving Repr

/-- The inner loop of _build_authors_section mapping one affiliation ID to its
emission token: scan the affiliation list with its enumeration index, return
the quoted token "AF-(idx+1)" for the first entry whose id matches, none if
the reference dangles. -/
def findAFAux (aid : String) : List Affiliation → Nat → Option String
  | [], _ => none
  | aff :: rest, idx =>
    if aff.id = aid then some ("\"AF-" ++ toString (idx + 1) ++ "\"")
    else findAFAux aid rest (idx + 1)

/-- The af_ids list built for one author: one token per affiliation reference
that resolves, dangling references silently omitted. -/
def translateAffIds (affs : List Affiliation) (ids : List String) : List String :=
  ids.filterMap (fun aid => findAFAux aid affs 0)

/-- The lines _build_authors_section emits for a single author: skipped
entirely unless both the name and the affiliation-reference list are
non-empty; the affiliations line is present only when at least one reference
resolved. -/
def authorLines (affs : List Affiliation) (a : Author) : List String :=
  if a.name ≠ "" ∧ a.affiliationIds ≠ [] then
    let afIds := translateAffIds affs a.affiliationIds
    ["    (", "      name: [" ++ escapeTypst a.name ++ "],"]
    ++ (if afIds ≠ [] then
          ["      affiliations: (" ++ String.intercalate ", " afIds ++ "),"]
        else [])
    ++ ["    ),"]
  else []

def concatMap (f : α → List β) : List α → List β
  | [] => []
  | a :: rest => f a ++ concatMap f rest

/-- The affiliation entries of _build_authors_section: enumeration index
advances over every entry, entries with an empty name are skipped. -/
def affLinesAux : List Affiliation → Nat → List String
  | [], _ => []
  | aff :: rest, idx =>
    (if aff.name ≠ "" then
      ["    (",
       "      id: \"AF-" ++ toString (idx + 1) ++ "\",",
       "      name: [" ++ escapeTypst aff.name ++ "],",
       "    ),"]
    else [])
    ++ affLinesAux rest (idx + 1)

/-- Apa7FormHandler._build_authors_section. -/
def buildAuthorsSection (authors : List Author) (affs : List Affiliation) : List String :=
  ["  // Authors and affiliations", "  authors: ("]
  ++ concatMap (authorLines affs) authors
  ++ ["  ),", "  affiliations: ("]
  ++ affLinesAux affs 0
  ++ ["  ),", ""]

/-- Apa7FormHandler._build_author_notes_section. -/
def buildAuthorNotesSection (authorNotes : String) (authors : List Author) : List String :=
  ["  author-notes: ["]
  ++ concatMap (fun a =>
      if a.name ≠ "" ∧ a.orcid ≠ "" then
        ["    #include-orcid([" ++ escapeTypst a.name ++ "], \"" ++ a.orcid ++ "\")", ""]
      else []) authors
  ++ (if authorNotes ≠ "" then ["    " ++ escapeTypst authorNotes] else [])
  ++ ["  ],"]

/-- Apa7FormHandler._build_keywords_list. -/
def buildKeywordsList (keywords : String) : String :=
  if keywords = "" then "()"
  else
    let kws := ((keywords.splitOn ",").map String.trim).filter (fun kw => kw ≠ "")
    if kws = [] then "()"
    else "(" ++ String.intercalate ", "
          (kws.map (fun kw => "\"" ++ escapeTypst kw ++ "\"")) ++ ")"

/-- The include statements the root file carries: one per section whose id is
non-empty and whose level is 1 (lines 365-369 of apa7_form_handler.py). -/
def includeLines (sections : List Section) : List String :=
  sections.filterMap (fun s =>
    if s.id ≠ "" ∧ s.level = 1 then
      some ("#include \"sections/" ++ s.id ++ ".typ\"")
    else none)

/-- Apa7FormHandler._build_main_typ_content, built over the (possibly
label-updated) section list. -/
def buildMainTypContent (d : Doc) : String :=
  let lines : List String :=
    ["#import \"@preview/versatile-apa:7.1.5\": *", "",
     "// Document titles should be formatted in title case",
     "#let doc-title = [" ++ escapeTypst d.title ++ "]", "",
     "#show: versatile-apa.with(",
     "  title: doc-title,", ""]
    ++ (if d.authors ≠ [] ∧ d.affiliations ≠ [] then
          buildAuthorsSection d.authors d.affiliations
        else [])
    ++ (if d.course ≠ "" ∨ d.instructor ≠ "" ∨ d.dueDate ≠ "" then
          ["  // Student-specific fields"]
          ++ (if d.course ≠ "" then ["  course: [" ++ escapeTypst d.course ++ "],"] else [])
          ++ (if d.instructor ≠ "" then
                ["  instructor: [" ++ escapeTypst d.instructor ++ "],"] else [])
          ++ (if d.dueDate ≠ "" then ["  due-date: [" ++ escapeTypst d.dueDate ++ "],"]
              else ["  due-date: datetime.today().display(),"])
          ++ [""]
        else [])
    ++ (if d.runningHead ≠ "" ∨ d.authorNotes ≠ "" then
          ["  // Professional-specific fields"]
          ++ (if d.runningHead ≠ "" then
                ["  running-head: [" ++ escapeTypst d.runningHead ++ "],"] else [])
          ++ (if d.authorNotes ≠ "" then
                buildAuthorNotesSection d.authorNotes d.authors else [])
          ++ [""]
        else [])
    ++ (if d.abstract ≠ "" ∨ d.keywords ≠ "" then
          (if d.abstract ≠ "" then
            ["  abstract: [" ++ escapeTypst d.abstract ++ "],"] else [])
          ++ (if d.keywords ≠ "" then
                ["  keywords: " ++ buildKeywordsList d.keywords ++ ","] else [])
          ++ [""]
        else [])
    ++ ["  // Common fields",
        "  font-family: \"" ++ d.fontFamily ++ "\",",
        "  font-size: " ++ toString d.fontSize ++ "pt,",
        "  region: \"" ++ d.region ++ "\",",
        "  language: \"" ++ d.language ++ "\",",
        "  paper-size: \"" ++ d.paperSize ++ "\",",
        "  implicit-introduction-heading: false,",
        "  abstract-as-description: "
          ++ (if d.abstractAsDesc then "true" else "false") ++ ",",
        ")", "",
        "// Document outlines",
        "#outline()",
        "#pagebreak()",
        "#outline(target: figure.where(kind: table), title: [Tables])",
        "#pagebreak()",
        "#outline(target: figure.where(kind: image), title: [Figures])",
        "#pagebreak()",
        "#outline(target: figure.where(kind: math.equation), title: [Equations])",
        "#pagebreak()",
        "#outline(target: figure.where(kind: raw), title: [Listings])",
        "#pagebreak()", "",
        "// Main document content"]
    ++ includeLines d.sections
    ++ [""]
    ++ ["#pagebreak()", "#bibliography(", "  \"bibliography/ref.bib\",",
        "  style: \"csl/apa.csl\",", "  full: true,", "  title: auto,", ")"]
  String.intercalate "\n" lines

/-- The body text of one section: derived from its block list when non-empty
(parts joined by blank lines), else the legacy flat content field.  Returns
the (label-updated) blocks and the advanced uuid counter. -/
def sectionContent (supply : Nat → String) (s : Section) (k : Nat) :
    List Block × String × Nat :=
  if s.blocks = [] then (s.blocks, s.content, k)
  else
    let r := processBlocks supply s.blocks k
    (r.1, String.intercalate "\n\n" r.2.1, r.2.2)

/-- Heading markup: heading depth = section level. -/
def mkHeading (level : Nat) (title : String) : String :=
  String.mk (List.replicate level '=') ++ " " ++ escapeTypst title

/-- The fixed first line of every section file. -/
def importHeader : String := "#import \"@preview/versatile-apa:7.1.5\": *\n\n"

/-- The section-file writing loop of generate_main_typ (lines 125-190):
accumulates a level-1 run (current_l1_id, current_l1_content) and emits one
(filename, content) write per run whose leading id is non-empty.  The Python
None/empty current_l1_id (both falsy) is modelled as the empty string.
Returns (updated sections, file writes, final uuid counter). -/
def runGenSections (supply : Nat → String) :
    List Section → Nat → String → List String →
    List Section × List (String × String) × Nat
  | [], k, cur, acc =>
    ([], (if cur ≠ "" then [(cur ++ ".typ", importHeader ++ String.intercalate "\n\n" acc)]
          else []), k)
  | s :: rest, k, cur, acc =>
    let c := sectionContent supply s k
    let s' := { s with blocks := c.1 }
    let full := mkHeading s.level s.title ++ "\n\n" ++ c.2.1
    if s.level = 1 then
      let pending :=
        if cur ≠ "" then [(cur ++ ".typ", importHeader ++ String.intercalate "\n\n" acc)]
        else []
      let r := runGenSections supply rest c.2.2 s.id [full]
      (s' :: r.1, pending ++ r.2.1, r.2.2)
    else
      let acc' := if cur ≠ "" then acc ++ [full] else acc
      let r := runGenSections supply rest c.2.2 cur acc'
      (s' :: r.1, r.2.1, r.2.2)

/-- Result of one generation pass: the label-updated model, the section file
writes (filename, content) in write order, and the root file content. -/
structure GenResult where
  sections : List Section
  files : List (String × String)
  root : String

/-- Apa7FormHandler.generate_main_typ, successful path: write the per-run
section files (assigning missing image labels as a side effect on the model),
then build and write the root main.typ content. -/
def generateMainTyp (d : Doc) (supply : Nat → String) : GenResult :=
  let r := runGenSections supply d.sections 0 "" []
  { sections := r.1, files := r.2.1, root := buildMainTypContent { d with sections := r.1 } }

/-! ## Build process supervisor (process_manager.py) -/

/-- QProcess state as observed by start_typst_watch / stop_process. -/
inductive QProcState where
  | NotRunning
  | Starting
  | Running
  deriving DecidableEq, Fintype, Repr

/-- Externally observable operations the supervisor performs on its process. -/
inductive WatchAction where
  | warnAlreadyRunning
  | errNoProjectPath
  | errNoExecutable
  | spawn
  | terminate
  | kill
  deriving DecidableEq, Fintype, Repr

/-- ProcessManager.start_typst_watch: refuses to start when the watch process
is not in the NotRunning state; otherwise requires a project path and a
resolved executable before spawning. -/
def startTypstWatch (st : QProcState) (hasProjectPath hasExecutable : Bool) :
    QProcState × List WatchAction :=
  if st ≠ .NotRunning then (st, [.warnAlreadyRunning])
  else if !hasProjectPath then (st, [.errNoProjectPath])
  else if !hasExecutable then (st, [.errNoExecutable])
  else (.Starting, [.spawn])

/-- ProcessManager.stop_process: no-op when nothing runs; otherwise terminate,
wait up to the 2-second grace period (`exitsWithinGrace` is the outcome of
that bounded wait), and on timeout escalate to a single kill. -/
def stopProcess (st : QProcState) (exitsWithinGrace : Bool) :
    QProcState × List WatchAction :=
  if st ≠ .NotRunning then
    if exitsWithinGrace then (.NotRunning, [.terminate])
    else (.NotRunning, [.terminate, .kill])
  else (st, [])

/-- Exit status of the one-shot export subprocess. -/
inductive ExitStatus where
  | normal
  | crashed
  deriving DecidableEq, Repr

structure ExportOutcome where
  success : Bool
  message : String
  deriving DecidableEq, Repr

/-- The on_finished completion handler of ProcessManager.export_pdf.
`moveErr` is the outcome of shutil.move (some error text when it raised),
`errOutput` the captured stderr, `finalDestPdf` the destination path. -/
def onExportFinished (exitCode : Int) (status : ExitStatus) (pdfExists : Bool)
    (moveErr : Option String) (errOutput finalDestPdf : String) : ExportOutcome :=
  if status = .normal ∧ exitCode = 0 then
    if pdfExists then
      match moveErr with
      | none => ⟨true, "Successfully exported to:\n" ++ finalDestPdf⟩
      | some e => ⟨false, "Failed to move PDF: " ++ e⟩
    else ⟨false, "Typst reported success, but PDF file was not found."⟩
  else ⟨false, "PDF export failed.\n\nError:\n" ++ errOutput⟩

end Ergo

namespace Ergo

lemma tsLookup_insert (ts : TS) (k : String) (v : Int × Nat) (k' : String) :
    tsLookup (tsInsert ts k v) k' = if k = k' then some v else tsLookup ts k' := by
  induction ts with
  | nil =>
    by_cases h : k = k' <;> simp [tsInsert, tsLookup, h]
  | cons e rest ih =>
    obtain ⟨k0, m0, c0⟩ := e
    by_cases h0 : k0 = k
    · subst h0
      by_cases h1 : k0 = k' <;> simp [tsInsert, tsLookup, h1]
    · by_cases h1 : k0 = k'
      · subst h1
        have : ¬ k = k0 := fun h => h0 h.symm
        simp [tsInsert, tsLookup, h0, this]
      · simp [tsInsert, tsLookup, h0, h1, ih]

/-- Every emitted token is either the token previously recorded for that path
(reused unchanged), or the scan's current wall-clock value. -/
lemma buildAux_tokens (now : Nat) :
    ∀ (files : List FileStat) (idx : Nat) (ts : TS) (fci : Int),
      (∀ k m c, tsLookup ts k = some (m, c) → c ≤ now) →
      ∀ e ∈ (buildAux now files idx ts fci).urls,
        (∃ m, tsLookup ts e.1 = some (m, e.2)) ∨ e.2 = now := by
  intro files
  induction files with
  | nil => intro idx ts fci _ e he; simp [buildAux] at he
  | cons f rest ih =>
    intro idx ts fci hts e he
    obtain ⟨key, stat⟩ := f
    match stat with
    | none =>
      simp only [buildAux, List.mem_cons] at he
      rcases he with he | he
      · right; rw [he]
      · exact ih (idx + 1) ts fci hts e he
    | some m =>
      match hl : tsLookup ts key with
      | some (sm, cb) =>
        simp only [buildAux, hl] at he
        by_cases hm : m ≠ sm
        · rw [if_pos hm] at he
          dsimp only at he
          simp only [List.mem_cons] at he
          rcases he with he | he
          · right; rw [he]
          · have hts' : ∀ k m' c, tsLookup (tsInsert ts key (m, now)) k = some (m', c) →
                c ≤ now := by
              intro k m' c hk
              rw [tsLookup_insert] at hk
              by_cases hkey : key = k
              · rw [if_pos hkey] at hk
                cases hk; exact le_refl now
              · rw [if_neg hkey] at hk
                exact hts k m' c hk
            have := ih (idx + 1) (tsInsert ts key (m, now)) _ hts' e he
            rcases this with ⟨m', hm'⟩ | hnow
            · rw [tsLookup_insert] at hm'
              by_cases hkey : key = e.1
              · rw [if_pos hkey] at hm'
                cases hm'
                right; rfl
              · rw [if_neg hkey] at hm'
                exact Or.inl ⟨m', hm'⟩
            · right; exact hnow
        · rw [if_neg hm] at he
          simp only [List.mem_cons] at he
          rcases he with he | he
          · left; exact ⟨sm, by rw [he]; exact hl⟩
          · exact ih (idx + 1) ts fci hts e he
      | none =>
        simp only [buildAux, hl] at he
        simp only [List.mem_cons] at he
        rcases he with he | he
        · right; rw [he]
        · have hts' : ∀ k m' c, tsLookup (tsInsert ts key (m, now)) k = some (m', c) →
              c ≤ now := by
            intro k m' c hk
            rw [tsLookup_insert] at hk
            by_cases hkey : key = k
            · rw [if_pos hkey] at hk
              cases hk; exact le_refl now
            · rw [if_neg hkey] at hk
              exact hts k m' c hk
          have := ih (idx + 1) (tsInsert ts key (m, now)) _ hts' e he
          rcases this with ⟨m', hm'⟩ | hnow
          · rw [tsLookup_insert] at hm'
            by_cases hkey : key = e.1
            · rw [if_pos hkey] at hm'
              cases hm'
              right; rfl
            · rw [if_neg hkey] at hm'
              exact Or.inl ⟨m', hm'⟩
          · right; exact hnow

/-- C1: given three page artifacts p1, p2, p3 whose initial scan over an empty
tracker state assigns tokens (t1, t2, t3) = (now0, now0, now0), a subsequent
scan (at a later wall-clock value) in which only p2's modification timestamp
changed yields the token list (t1, t2', t3) with t2' different from t2 and the
tokens of p1 and p3 reused unchanged, and reports the first-changed index
as 1 (0-based). -/
theorem tracker_single_change (m1 m2 m3 m2' : Int) (now0 now1 : Nat)
    (hm : m2' ≠ m2) (hnow : now0 < now1) :
    (buildUrlsWithCacheBusting
        [("p1.svg", some m1), ("p2.svg", some m2), ("p3.svg", some m3)] now0 []).urls
      = [("p1.svg", now0), ("p2.svg", now0), ("p3.svg", now0)]
    ∧ (buildUrlsWithCacheBusting
        [("p1.svg", some m1), ("p2.svg", some m2'), ("p3.svg", some m3)] now1
        (buildUrlsWithCacheBusting
          [("p1.svg", some m1), ("p2.svg", some m2), ("p3.svg", some m3)] now0 []).ts).urls
      = [("p1.svg", now0), ("p2.svg", now1), ("p3.svg", now0)]
    ∧ now1 ≠ now0
    ∧ (buildUrlsWithCacheBusting
        [("p1.svg", some m1), ("p2.svg", some m2'), ("p3.svg", some m3)] now1
        (buildUrlsWithCacheBusting
          [("p1.svg", some m1), ("p2.svg", some m2), ("p3.svg", some m3)] now0 []).ts).firstChanged
      = 1 := by
  have hne : now1 ≠ now0 := Nat.ne_of_gt hnow
  have hts : (buildUrlsWithCacheBusting
      [("p1.svg", some m1), ("p2.svg", some m2), ("p3.svg", some m3)] now0 []).ts
      = [("p1.svg", m1, now0), ("p2.svg", m2, now0), ("p3.svg", m3, now0)] := rfl
  refine ⟨rfl, ?_, hne, ?_⟩
  · rw [hts]
    simp [buildUrlsWithCacheBusting, buildAux, tsLookup, tsInsert, hm]
  · rw [hts]
    simp [buildUrlsWithCacheBusting, buildAux, tsLookup, tsInsert, hm]

/-- Concrete instance of tracker_single_change. -/
theorem tracker_single_change_witness :
    (buildUrlsWithCacheBusting
        [("p1.svg", some 0), ("p2.svg", some 1), ("p3.svg", some 2)] 10 []).urls
      = [("p1.svg", 10), ("p2.svg", 10), ("p3.svg", 10)]
    ∧ (buildUrlsWithCacheBusting
        [("p1.svg", some 0), ("p2.svg", some 7), ("p3.svg", some 2)] 11
        (buildUrlsWithCacheBusting
          [("p1.svg", some 0), ("p2.svg", some 1), ("p3.svg", some 2)] 10 []).ts).urls
      = [("p1.svg", 10), ("p2.svg", 11), ("p3.svg", 10)]
    ∧ (11 : Nat) ≠ 10
    ∧ (buildUrlsWithCacheBusting
        [("p1.svg", some 0), ("p2.svg", some 7), ("p3.svg", some 2)] 11
        (buildUrlsWithCacheBusting
          [("p1.svg", some 0), ("p2.svg", some 1), ("p3.svg", some 2)] 10 []).ts).firstChanged
      = 1 := by
  have h := tracker_single_change 0 1 2 7 10 11 (by decide) (by decide)
  exact ⟨h.1, h.2.1, h.2.2.1, h.2.2.2⟩

/-- C9 counterexample: fresh invalidation tokens are NOT always distinct from
previously assigned ones.  Scan 1 at wall-clock value 5 assigns token 5 to
p1.svg; scan 2, run during the same millisecond (wall clock still 5), sees the
unseen path p2.svg and assigns it the fresh token 5, equal to the token
previously assigned to p1.svg. -/
theorem token_collision :
    (buildUrlsWithCacheBusting [("p1.svg", some 0)] 5 []).urls = [("p1.svg", 5)]
    ∧ (buildUrlsWithCacheBusting [("p1.svg", some 0), ("p2.svg", some 1)] 5
        (buildUrlsWithCacheBusting [("p1.svg", some 0)] 5 []).ts).urls
      = [("p1.svg", 5), ("p2.svg", 5)] := by
  exact ⟨rfl, rfl⟩

/-- C9 (amended): every token a scan emits for a path is either that path's
previously recorded token reused unchanged, or the scan's current wall-clock
value; and when the scan's wall-clock value strictly exceeds every token
recorded before the scan, every freshly assigned token is distinct from every
previously assigned token. -/
theorem fresh_tokens (files : List FileStat) (now : Nat) (ts : TS)
    (h : ∀ k m c, tsLookup ts k = some (m, c) → c < now) :
    ∀ e ∈ (buildUrlsWithCacheBusting files now ts).urls,
      (∃ m, tsLookup ts e.1 = some (m, e.2))
      ∨ (e.2 = now ∧ ∀ k m c, tsLookup ts k = some (m, c) → c ≠ e.2) := by
  intro e he
  have hle : ∀ k m c, tsLookup ts k = some (m, c) → c ≤ now :=
    fun k m c hk => le_of_lt (h k m c hk)
  rcases buildAux_tokens now files 0 ts (-1) hle e he with hreuse | hnow
  · exact Or.inl hreuse
  · refine Or.inr ⟨hnow, fun k m c hk => ?_⟩
    rw [hnow]
    exact ne_of_lt (h k m c hk)

/-- Concrete instance of fresh_tokens: empty prior state, one unseen file. -/
theorem fresh_tokens_witness :
    (∃ m, tsLookup ([] : TS) "p1.svg" = some (m, 5))
    ∨ ((5 : Nat) = 5 ∧ ∀ k m c, tsLookup ([] : TS) k = some (m, c) → c ≠ 5) := by
  have h := fresh_tokens [("p1.svg", some 2)] 5 []
    (fun k m c hk => by simp [tsLookup] at hk) ("p1.svg", 5) (by decide)
  exact h

/-! ## Escaping (C6) -/

lemma replChar_append (c : Char) (r : List Char) (a b : List Char) :
    replChar c r (a ++ b) = replChar c r a ++ replChar c r b := by
  induction a with
  | nil => rfl
  | cons x xs ih => simp [replChar, ih]

lemma escapeTypstL_append (a b : List Char) :
    escapeTypstL (a ++ b) = escapeTypstL a ++ escapeTypstL b := by
  simp [escapeTypstL, replChar_append]

lemma escapeTypstL_eq_escSpec : ∀ s : List Char, escapeTypstL s = escSpec s := by
  intro s
  induction s with
  | nil => rfl
  | cons ch rest ih =>
    have hsplit : escapeTypstL (ch :: rest) = escapeTypstL [ch] ++ escapeTypstL rest := by
      have : ch :: rest = [ch] ++ rest := rfl
      rw [this, escapeTypstL_append]
    rw [hsplit, ih]
    have hone : escapeTypstL [ch] = (if isSpecialChar ch then ['\\', ch] else [ch]) := by
      by_cases h1 : ch = '\\'
      · subst h1; rfl
      · by_cases h2 : ch = '['
        · subst h2; rfl
        · by_cases h3 : ch = ']'
          · subst h3; rfl
          · by_cases h4 : ch = '#'
            · subst h4; rfl
            · by_cases h5 : ch = '$'
              · subst h5; rfl
              · simp [escapeTypstL, replChar, isSpecialChar, h1, h2, h3, h4, h5]
    rw [hone]
    rfl

lemma noUnescaped_escSpec : ∀ s : List Char, noUnescaped (escSpec s) = true := by
  intro s
  induction s with
  | nil => rfl
  | cons ch rest ih =>
    by_cases h : isSpecialChar ch = true
    · simp only [escSpec, if_pos h, List.cons_append, List.nil_append]
      simp only [noUnescaped, noUnescapedAux] at ih ⊢
      simp [ih]
    · have hne : ch ≠ '\\' := by
        intro hh; subst hh; simp [isSpecialChar] at h
      simp only [escSpec, if_neg h, List.cons_append, List.nil_append]
      simp only [noUnescaped, noUnescapedAux] at ih ⊢
      simp [hne, ih]
      simpa using h

/-- C6: _escape_typst escape-prefixes each character of the special set
(backslash, the grouping characters, the directive character and the
math/variable-interpolation character); escaping backslash first makes the
chain of global replaces coincide with a single character-wise escaping pass
(no inserted escape is double-escaped); consequently the escaped result of
any string, in particular one containing each special character exactly once,
contains no un-escaped occurrence of any special character. -/
theorem escape_typst_spec (s : String) :
    (escapeTypst s).data = escSpec s.data
    ∧ noUnescaped ((escapeTypst s).data) = true := by
  by_cases h : s = ""
  · subst h
    exact ⟨rfl, rfl⟩
  · have hd : (escapeTypst s).data = escapeTypstL s.data := by
      simp [escapeTypst, h]
    rw [hd, escapeTypstL_eq_escSpec]
    exact ⟨rfl, noUnescaped_escSpec s.data⟩

/-! ## Author emission (C2) -/

lemma findAFAux_pos (aid : String) :
    ∀ (affs : List Affiliation) (n i : Nat) (aff : Affiliation),
      affs[i]? = some aff → aff.id = aid →
      (∀ j, j < i → ∀ a2 : Affiliation, affs[j]? = some a2 → a2.id ≠ aid) →
      findAFAux aid affs n = some ("\"AF-" ++ toString (n + i + 1) ++ "\"") := by
  intro affs
  induction affs with
  | nil => intro n i aff hget; simp at hget
  | cons a rest ih =>
    intro n i aff hget hid hearlier
    cases i with
    | zero =>
      simp only [List.getElem?_cons_zero, Option.some.injEq] at hget
      subst hget
      simp [findAFAux, hid]
    | succ i' =>
      have hhead : a.id ≠ aid := by
        have := hearlier 0 (Nat.succ_pos i') a (by simp)
        exact this
      simp only [List.getElem?_cons_succ] at hget
      have hearlier' : ∀ j, j < i' → ∀ a2 : Affiliation, rest[j]? = some a2 → a2.id ≠ aid := by
        intro j hj a2 hg
        exact hearlier (j + 1) (Nat.succ_lt_succ hj) a2 (by simpa using hg)
      have := ih (n + 1) i' aff hget hid hearlier'
      rw [findAFAux, if_neg hhead, this]
      have harith : n + 1 + i' + 1 = n + (i' + 1) + 1 := by omega
      rw [harith]

lemma findAFAux_none (aid : String) :
    ∀ (affs : List Affiliation) (n : Nat),
      (∀ aff ∈ affs, aff.id ≠ aid) → findAFAux aid affs n = none := by
  intro affs
  induction affs with
  | nil => intro n _; rfl
  | cons a rest ih =>
    intro n h
    rw [findAFAux, if_neg (h a (List.mem_cons_self a rest))]
    exact ih (n + 1) (fun aff hm => h aff (List.mem_cons_of_mem a hm))

/-- C2: in the emitted author block, an author with a non-empty name but an
empty affiliation-reference list never appears; an author with a name and at
least one reference that resolves always appears, with the affiliations line
carrying the translated tokens; a reference that resolves at 0-based position
i of the affiliation list (its first match) is translated to the token
AF-(i+1), and a dangling reference contributes nothing (translateAffIds keeps
only successful lookups). -/
theorem author_emission (affs : List Affiliation) (a : Author) (hname : a.name ≠ "") :
    (a.affiliationIds = [] → authorLines affs a = [])
    ∧ ((∃ aid ∈ a.affiliationIds, (findAFAux aid affs 0).isSome) →
        authorLines affs a =
          ["    (",
           "      name: [" ++ escapeTypst a.name ++ "],",
           "      affiliations: ("
             ++ String.intercalate ", " (translateAffIds affs a.affiliationIds) ++ "),",
           "    ),"])
    ∧ (∀ (aid : String) (i : Nat) (aff : Affiliation),
        affs[i]? = some aff → aff.id = aid →
        (∀ j, j < i → ∀ a2 : Affiliation, affs[j]? = some a2 → a2.id ≠ aid) →
        findAFAux aid affs 0 = some ("\"AF-" ++ toString (i + 1) ++ "\""))
    ∧ (∀ aid : String, (∀ aff ∈ affs, aff.id ≠ aid) → findAFAux aid affs 0 = none) := by
  refine ⟨?_, ?_, ?_, ?_⟩
  · intro hids
    simp [authorLines, hids]
  · rintro ⟨aid, hmem, hsome⟩
    have hids : a.affiliationIds ≠ [] := List.ne_nil_of_mem hmem
    obtain ⟨tok, htok⟩ := Option.isSome_iff_exists.mp hsome
    have hafne : translateAffIds affs a.affiliationIds ≠ [] := by
      intro hnil
      have : tok ∈ translateAffIds affs a.affiliationIds :=
        List.mem_filterMap.mpr ⟨aid, hmem, htok⟩
      rw [hnil] at this
      exact absurd this (List.not_mem_nil tok)
    rw [authorLines, if_pos ⟨hname, hids⟩]
    simp only [if_pos hafne]
    rfl
  · intro aid i aff hget hid hearlier
    have := findAFAux_pos aid affs 0 i aff hget hid hearlier
    rw [this]
    have : 0 + i + 1 = i + 1 := by omega
    rw [this]
  · intro aid h
    exact findAFAux_none aid affs 0 h

/-- Concrete instance of author_emission: affiliation list of two entries, an
author referencing the second entry plus one dangling reference. -/
theorem author_emission_witness :
    authorLines [⟨"a1", "Uni A"⟩, ⟨"a2", "Uni B"⟩]
        ⟨"Alice", "", ["a2", "zz"]⟩
      = ["    (", "      name: [Alice],", "      affiliations: (\"AF-2\"),", "    ),"] := by
  have h := (author_emission [⟨"a1", "Uni A"⟩, ⟨"a2", "Uni B"⟩]
      ⟨"Alice", "", ["a2", "zz"]⟩ (by decide)).2.1
      ⟨"a2", by decide, by decide⟩
  rw [h]
  rfl

/-! ## Supervisor lifecycle (C8) -/

/-- C8: the supervisor owns at most one watch subprocess.  Requesting start
while the process is not Stopped is a no-op emitting only a warning (no
spawn); a spawn can only happen from the NotRunning state; requesting stop
while Stopped is a no-op; a stop whose graceful wait times out escalates to
exactly one kill, and a graceful stop performs none. -/
theorem supervisor_lifecycle :
    (∀ (st : QProcState) (hp he : Bool), st ≠ .NotRunning →
        startTypstWatch st hp he = (st, [.warnAlreadyRunning]))
    ∧ (∀ (st : QProcState) (hp he : Bool),
        WatchAction.spawn ∈ (startTypstWatch st hp he).2 → st = .NotRunning)
    ∧ (∀ g : Bool, stopProcess .NotRunning g = (.NotRunning, []))
    ∧ (∀ st : QProcState, st ≠ .NotRunning →
        ((stopProcess st false).2.count .kill = 1
          ∧ (stopProcess st true).2.count .kill = 0)) := by
  decide

/-- Concrete instance of supervisor_lifecycle. -/
theorem supervisor_lifecycle_witness :
    startTypstWatch .Running true true = (.Running, [.warnAlreadyRunning])
    ∧ stopProcess .NotRunning true = (.NotRunning, [])
    ∧ (stopProcess .Running false).2.count .kill = 1 :=
  ⟨supervisor_lifecycle.1 .Running true true (by decide),
   supervisor_lifecycle.2.2.1 true,
   (supervisor_lifecycle.2.2.2 .Running (by decide)).1⟩

/-! ## Export completion (C7) -/

/-- C7 counterexample: completion does NOT report success whenever the
subprocess exited normally with status zero and the output file exists — if
moving the file to the destination fails, failure is reported even in that
case. -/
theorem export_success_iff_exit_and_file_false :
    ¬ (∀ (code : Int) (status : ExitStatus) (ex : Bool) (mv : Option String)
        (err dst : String),
        (onExportFinished code status ex mv err dst).success = true ↔
          (status = .normal ∧ code = 0 ∧ ex = true)) := by
  intro h
  have := (h 0 .normal true (some "disk full") "" "/dest/proj.pdf").2 ⟨rfl, rfl, rfl⟩
  simp [onExportFinished] at this

/-- C7 (amended): completion reports success iff the subprocess exited
normally with status zero AND the output file exists AND the move to the
destination succeeded; otherwise it reports failure with a message
distinguishing process failure (carrying the captured stderr text) from
success-but-artifact-missing, and from a failed move. -/
theorem export_completion (code : Int) (status : ExitStatus) (ex : Bool)
    (mv : Option String) (err dst : String) :
    ((onExportFinished code status ex mv err dst).success = true ↔
        (status = .normal ∧ code = 0 ∧ ex = true ∧ mv = none))
    ∧ (¬(status = .normal ∧ code = 0) →
        (onExportFinished code status ex mv err dst).message
          = "PDF export failed.\n\nError:\n" ++ err)
    ∧ (status = .normal → code = 0 → ex = false →
        (onExportFinished code status ex mv err dst).message
          = "Typst reported success, but PDF file was not found.")
    ∧ (status = .normal → code = 0 → ex = true → ∀ e, mv = some e →
        (onExportFinished code status ex mv err dst).message
          = "Failed to move PDF: " ++ e) := by
  by_cases hc : status = ExitStatus.normal ∧ code = 0
  · obtain ⟨h1, h2⟩ := hc
    subst h1
    subst h2
    refine ⟨?_, fun hn => absurd ⟨rfl, rfl⟩ hn, ?_, ?_⟩
    · cases ex
      · simp [onExportFinished]
      · cases mv <;> simp [onExportFinished]
    · intro _ _ hex
      subst hex
      simp [onExportFinished]
    · intro _ _ hex e hmv
      subst hex
      subst hmv
      simp [onExportFinished]
  · refine ⟨?_, fun _ => ?_, ?_, ?_⟩
    · have hs : (onExportFinished code status ex mv err dst).success = false := by
        simp [onExportFinished, hc]
      rw [hs]
      simp only [Bool.false_eq_true, false_iff]
      intro hcontra
      exact hc ⟨hcontra.1, hcontra.2.1⟩
    · have hmsg : onExportFinished code status ex mv err dst
          = ⟨false, "PDF export failed.\n\nError:\n" ++ err⟩ := by
        simp [onExportFinished, hc]
      rw [hmsg]
    · intro h1 h2
      exact absurd ⟨h1, h2⟩ hc
    · intro h1 h2
      exact absurd ⟨h1, h2⟩ hc

/-- Concrete instances of export_completion: a failed process, and a
successful one whose artifact is missing. -/
theorem export_completion_witness :
    (onExportFinished 1 .normal true none "boom" "/dest/proj.pdf").message
      = "PDF export failed.\n\nError:\n" ++ "boom"
    ∧ (onExportFinished 0 .normal false none "" "/dest/proj.pdf").message
      = "Typst reported success, but PDF file was not found." :=
  ⟨(export_completion 1 .normal true none "boom" "/dest/proj.pdf").2.1
      (by intro h; exact absurd h.2 (by decide)),
   (export_completion 0 .normal false none "" "/dest/proj.pdf").2.2.1 rfl rfl rfl⟩

/-! ## Image label assignment (C5) -/

lemma img_label_ne (x : String) : ("img:" ++ x) ≠ "" := by
  intro h
  have hlen := congrArg String.length h
  rw [String.length_append] at hlen
  simp at hlen
  exact absurd hlen.1 (by decide)

/-- C5: an image block whose label is empty at generation time is assigned
exactly one generated non-empty label ("img:" ++ the drawn uuid), persisted
back into the block; a second generation over the resulting block (label now
present) emits the identical figure markup and consumes no uuid; and an
already-assigned (non-empty) label is never changed. -/
theorem image_label_assignment (p c n : String) (supply supply' : Nat → String)
    (k k' : Nat) :
    processBlocks supply [.image p c n ""] k
      = ([.image p c n ("img:" ++ supply k)],
         [figCode (p.replace "\\" "/") c n ("img:" ++ supply k)], k + 1)
    ∧ ("img:" ++ supply k) ≠ ""
    ∧ processBlocks supply' [.image p c n ("img:" ++ supply k)] k'
      = ([.image p c n ("img:" ++ supply k)],
         [figCode (p.replace "\\" "/") c n ("img:" ++ supply k)], k')
    ∧ (∀ l, l ≠ "" → processBlocks supply' [.image p c n l] k'
        = ([.image p c n l], [figCode (p.replace "\\" "/") c n l], k')) := by
  refine ⟨rfl, img_label_ne _, ?_, ?_⟩
  · simp [processBlocks, img_label_ne (supply k)]
  · intro l hl
    simp [processBlocks, hl]

/-- Concrete instance of image_label_assignment. -/
theorem image_label_assignment_witness :
    processBlocks (fun j => "v" ++ toString j) [.image "fig.png" "cap" "" "lbl"] 3
      = ([.image "fig.png" "cap" "" "lbl"],
         [figCode ("fig.png".replace "\\" "/") "cap" "" "lbl"], 3) :=
  (image_label_assignment "fig.png" "cap" "" (fun _ => "u") (fun j => "v" ++ toString j)
      0 3).2.2.2 "lbl" (by decide)

/-! ## Generation idempotence (C4) -/

lemma processBlocks_second (supply supply' : Nat → String) :
    ∀ (bs : List Block) (k k' : Nat),
      processBlocks supply' (processBlocks supply bs k).1 k'
        = ((processBlocks supply bs k).1, (processBlocks supply bs k).2.1, k') := by
  intro bs
  induction bs with
  | nil => intro k k'; rfl
  | cons b rest ih =>
    intro k k'
    cases b with
    | text c =>
      simp [processBlocks, ih]
    | image p c n l =>
      by_cases hl : l = ""
      · subst hl
        simp [processBlocks, img_label_ne (supply k), ih]
      · simp [processBlocks, hl, ih]

lemma processBlocks_cons_ne_nil (supply : Nat → String) (b : Block)
    (rest : List Block) (k : Nat) :
    (processBlocks supply (b :: rest) k).1 ≠ [] := by
  cases b <;> simp [processBlocks]

lemma sectionContent_second (supply supply' : Nat → String) (s : Section) (k k' : Nat) :
    sectionContent supply' { s with blocks := (sectionContent supply s k).1 } k'
      = ((sectionContent supply s k).1, (sectionContent supply s k).2.1, k') := by
  by_cases hb : s.blocks = []
  · simp [sectionContent, hb]
  · have h1 : sectionContent supply s k
        = ((processBlocks supply s.blocks k).1,
           String.intercalate "\n\n" (processBlocks supply s.blocks k).2.1,
           (processBlocks supply s.blocks k).2.2) := by
      simp [sectionContent, hb]
    have h2 : (processBlocks supply s.blocks k).1 ≠ [] := by
      cases hbs : s.blocks with
      | nil => exact absurd hbs hb
      | cons b r => rw [hbs] at *; exact processBlocks_cons_ne_nil supply b r k
    rw [h1]
    simp [sectionContent, h2, processBlocks_second supply supply' s.blocks k k']

lemma runGenSections_second (supply supply' : Nat → String) :
    ∀ (ss : List Section) (k k' : Nat) (cur : String) (acc : List String),
      runGenSections supply' (runGenSections supply ss k cur acc).1 k' cur acc
        = ((runGenSections supply ss k cur acc).1,
           (runGenSections supply ss k cur acc).2.1, k') := by
  intro ss
  induction ss with
  | nil => intro k k' cur acc; rfl
  | cons s rest ih =>
    intro k k' cur acc
    have hsc := sectionContent_second supply supply' s k k'
    by_cases hl : s.level = 1
    · simp only [hl] at hsc
      simp only [runGenSections, hl, reduceIte]
      rw [hsc]
      simp [ih]
    · simp [runGenSections, hl, hsc, ih]

/-- C4: generation is idempotent — a second generation pass over the model
that the first pass returned (labels persisted, nothing else changed), with
any uuid stream, returns the identical model, the identical section file
writes (names and byte content), and the identical root file content. -/
theorem generation_idempotent (d : Doc) (supply supply' : Nat → String) :
    generateMainTyp { d with sections := (generateMainTyp d supply).sections } supply'
      = generateMainTyp d supply := by
  have h := runGenSections_second supply supply' d.sections 0 0 "" []
  simp [generateMainTyp, h]

/-! ## File and include counts (C3) -/

lemma runGen_files_names (supply : Nat → String) :
    ∀ (ss : List Section) (k : Nat) (cur : String) (acc : List String),
      ((runGenSections supply ss k cur acc).2.1).map Prod.fst
        = (if cur ≠ "" then [cur ++ ".typ"] else [])
          ++ (ss.filter (fun s => s.level == 1 && s.id != "")).map
              (fun s => s.id ++ ".typ") := by
  intro ss
  induction ss with
  | nil =>
    intro k cur acc
    by_cases h : cur = "" <;> simp [runGenSections, h]
  | cons s rest ih =>
    intro k cur acc
    by_cases hl : s.level = 1
    · by_cases hid : s.id = ""
      · have hcond : (s.level == 1 && s.id != "") = false := by
          simp [hid]
        simp only [runGenSections, hl, if_pos, List.filter_cons, hcond]
        simp [ih, hid]
        by_cases hcur : cur = "" <;> simp [hcur]
      · have hcond : (s.level == 1 && s.id != "") = true := by
          simp [hl, hid]
        simp only [runGenSections, hl, if_pos, List.filter_cons, hcond]
        simp [ih, hid]
        by_cases hcur : cur = "" <;> simp [hcur]
    · have hcond : (s.level == 1 && s.id != "") = false := by
        simp [hl]
      simp only [runGenSections, List.filter_cons, hcond]
      simp [hl, ih]

lemma runGen_sections_proj (supply : Nat → String) :
    ∀ (ss : List Section) (k : Nat) (cur : String) (acc : List String),
      ((runGenSections supply ss k cur acc).1).map (fun s => (s.id, s.level))
        = ss.map (fun s => (s.id, s.level)) := by
  intro ss
  induction ss with
  | nil => intro k cur acc; rfl
  | cons s rest ih =>
    intro k cur acc
    by_cases hl : s.level = 1 <;> simp [runGenSections, hl, ih]

lemma includeLines_congr :
    ∀ ss tt : List Section,
      ss.map (fun s => (s.id, s.level)) = tt.map (fun s => (s.id, s.level)) →
      includeLines ss = includeLines tt := by
  intro ss
  induction ss with
  | nil =>
    intro tt h
    cases tt with
    | nil => rfl
    | cons t tt' => simp at h
  | cons s ss' ih =>
    intro tt h
    cases tt with
    | nil => simp at h
    | cons t tt' =>
      simp only [List.map_cons, List.cons.injEq, Prod.mk.injEq] at h
      obtain ⟨⟨hid, hlev⟩, htail⟩ := h
      simp only [includeLines, List.filterMap_cons]
      rw [hid, hlev]
      have := ih tt' htail
      simp only [includeLines] at this
      rw [this]

lemma includeLines_eq_filter :
    ∀ ss : List Section, (∀ s ∈ ss, s.level = 1 → s.id ≠ "") →
      includeLines ss
        = (ss.filter (fun s => s.level == 1)).map
            (fun s => "#include \"sections/" ++ s.id ++ ".typ\"") := by
  intro ss
  induction ss with
  | nil => intro _; rfl
  | cons s rest ih =>
    intro h
    have hrest := fun t ht => h t (List.mem_cons_of_mem s ht)
    simp only [includeLines] at ih ⊢
    by_cases hl : s.level = 1
    · have hid : s.id ≠ "" := h s (List.mem_cons_self s rest) hl
      have hcond : (s.level == 1) = true := by simp [hl]
      simp [List.filterMap_cons, List.filter_cons, hcond, hid, hl, ih hrest]
    · have hcond : (s.level == 1) = false := by simp [hl]
      simp [List.filterMap_cons, List.filter_cons, hcond, hl, ih hrest]

lemma filter_level_one_eq (ss : List Section)
    (h : ∀ s ∈ ss, s.level = 1 → s.id ≠ "") :
    ss.filter (fun s => s.level == 1 && s.id != "")
      = ss.filter (fun s => s.level == 1) := by
  induction ss with
  | nil => rfl
  | cons s rest ih =>
    have hrest := fun t ht => h t (List.mem_cons_of_mem s ht)
    by_cases hl : s.level = 1
    · have hid : s.id ≠ "" := h s (List.mem_cons_self s rest) hl
      have h1 : (s.level == 1 && s.id != "") = true := by simp [hl, hid]
      have h2 : (s.level == 1) = true := by simp [hl]
      simp [List.filter_cons, h1, h2, ih hrest, hid]
    · have h1 : (s.level == 1 && s.id != "") = false := by simp [hl]
      have h2 : (s.level == 1) = false := by simp [hl]
      simp [List.filter_cons, h1, h2, ih hrest]

/-- C3: for a Document whose level-1 sections all carry a non-empty id (the
data model's stable-ID invariant), one generation pass writes exactly one
section file per level-1 section — i.e. per contiguous run led by a level-1
section, the file named by the run's leading section id — in document order,
and the root content carries exactly one include statement per such run in
document order (the root itself being the single remaining write). -/
theorem generation_file_counts (supply : Nat → String) (d : Doc)
    (h : ∀ s ∈ d.sections, s.level = 1 → s.id ≠ "") :
    ((generateMainTyp d supply).files.map Prod.fst
       = (d.sections.filter (fun s => s.level == 1)).map (fun s => s.id ++ ".typ"))
    ∧ (generateMainTyp d supply).files.length
       = (d.sections.filter (fun s => s.level == 1)).length
    ∧ includeLines ((generateMainTyp d supply).sections)
       = (d.sections.filter (fun s => s.level == 1)).map
           (fun s => "#include \"sections/" ++ s.id ++ ".typ\"") := by
  have hnames : (generateMainTyp d supply).files.map Prod.fst
      = (d.sections.filter (fun s => s.level == 1)).map (fun s => s.id ++ ".typ") := by
    have := runGen_files_names supply d.sections 0 "" []
    simp only [generateMainTyp]
    simp only [this]
    rw [filter_level_one_eq d.sections h]
    simp
  refine ⟨hnames, ?_, ?_⟩
  · have := congrArg List.length hnames
    simpa using this
  · have hproj : ((generateMainTyp d supply).sections).map (fun s => (s.id, s.level))
        = d.sections.map (fun s => (s.id, s.level)) := by
      simp only [generateMainTyp]
      exact runGen_sections_proj supply d.sections 0 "" []
    rw [includeLines_congr _ _ hproj]
    exact includeLines_eq_filter d.sections h

/-- Concrete instance of generation_file_counts: two level-1 runs, the first
carrying a level-2 subsection. -/
theorem generation_file_counts_witness :
    ((generateMainTyp
        ⟨"T", [], [], [⟨"intro", "Intro", 1, [], "x"⟩, ⟨"sub", "S", 2, [], "y"⟩,
                       ⟨"m", "M", 1, [], "z"⟩],
         "", "", "", "", "", "", "", "Times", 12, "us-letter", "us", "en",
         false, false⟩
        (fun _ => "u")).files.map Prod.fst
      = ["intro.typ", "m.typ"])
    ∧ includeLines ((generateMainTyp
        ⟨"T", [], [], [⟨"intro", "Intro", 1, [], "x"⟩, ⟨"sub", "S", 2, [], "y"⟩,
                       ⟨"m", "M", 1, [], "z"⟩],
         "", "", "", "", "", "", "", "Times", 12, "us-letter", "us", "en",
         false, false⟩
        (fun _ => "u")).sections)
      = ["#include \"sections/intro.typ\"", "#include \"sections/m.typ\""] := by
  have h := generation_file_counts (fun _ => "u")
    ⟨"T", [], [], [⟨"intro", "Intro", 1, [], "x"⟩, ⟨"sub", "S", 2, [], "y"⟩,
                   ⟨"m", "M", 1, [], "z"⟩],
     "", "", "", "", "", "", "", "Times", 12, "us-letter", "us", "en",
     false, false⟩
    (by intro s hs hl; fin_cases hs <;> simp_all)
  exact ⟨h.1.trans (by decide), h.2.2.trans (by decide)⟩

/-! ## Silently omitted sections (C10) -/

/-- C10: sections of level greater than 1 that precede the first level-1
section contribute nothing to generation — the file writes are exactly those
of the remaining document (for a suitably advanced uuid counter) and the root
include list ignores them; and a level-1 section with an empty id yields no
section file (the emitted file names are exactly the non-empty ids of level-1
sections) and no include statement. -/
theorem leading_and_unnamed_sections_omitted (supply : Nat → String)
    (pre rest : List Section) (k : Nat) (hpre : ∀ s ∈ pre, s.level ≠ 1)
    (s0 : Section) (hid : s0.id = "") :
    (∃ k', (runGenSections supply (pre ++ rest) k "" []).2.1
            = (runGenSections supply rest k' "" []).2.1)
    ∧ includeLines (pre ++ rest) = includeLines rest
    ∧ (∀ (ss : List Section) (k0 : Nat),
        ((runGenSections supply ss k0 "" []).2.1).map Prod.fst
          = (ss.filter (fun s => s.level == 1 && s.id != "")).map
              (fun s => s.id ++ ".typ"))
    ∧ includeLines [s0] = [] := by
  refine ⟨?_, ?_, ?_, ?_⟩
  · clear hid s0
    induction pre generalizing k with
    | nil => exact ⟨k, rfl⟩
    | cons s pre' ih =>
      have hl : s.level ≠ 1 := hpre s (List.mem_cons_self s pre')
      have hpre' : ∀ t ∈ pre', t.level ≠ 1 :=
        fun t ht => hpre t (List.mem_cons_of_mem s ht)
      obtain ⟨k', hk'⟩ := ih (sectionContent supply s k).2.2 hpre'
      refine ⟨k', ?_⟩
      simp only [List.cons_append, runGenSections, hl]
      simpa using hk'
  · rw [includeLines, List.filterMap_append]
    have hpre0 : List.filterMap (fun s =>
        if s.id ≠ "" ∧ s.level = 1 then
          some ("#include \"sections/" ++ s.id ++ ".typ\"")
        else none) pre = [] := by
      rw [List.filterMap_eq_nil_iff]
      intro s hs
      exact if_neg (fun hh => hpre s hs hh.2)
    rw [hpre0]
    rfl
  · intro ss k0
    have := runGen_files_names supply ss k0 "" []
    simpa using this
  · simp [includeLines, hid]

/-- Concrete instance of leading_and_unnamed_sections_omitted: one leading
level-2 section, and a level-1 section with an empty id. -/
theorem leading_and_unnamed_sections_omitted_witness :
    (∃ k', (runGenSections (fun _ => "u")
              ([⟨"x", "X", 2, [], "c"⟩] ++ [⟨"a", "A", 1, [], "b"⟩]) 0 "" []).2.1
            = (runGenSections (fun _ => "u") [⟨"a", "A", 1, [], "b"⟩] k' "" []).2.1)
    ∧ includeLines ([⟨"x", "X", 2, [], "c"⟩] ++ [⟨"a", "A", 1, [], "b"⟩])
        = includeLines [⟨"a", "A", 1, [], "b"⟩]
    ∧ includeLines [⟨"", "T", 1, [], "w"⟩] = [] := by
  have h := leading_and_unnamed_sections_omitted (fun _ => "u")
    [⟨"x", "X", 2, [], "c"⟩] [⟨"a", "A", 1, [], "b"⟩] 0
    (by intro s hs; fin_cases hs; simp_all)
    ⟨"", "T", 1, [], "w"⟩ (by decide)
  exact ⟨h.1, h.2.1, h.2.2.2⟩

end Ergo
